import Mathlib

/-!
Shallow embedding of `src/models/user.ts` of the codgic-api repository
(identity / credential lifecycle subsystem), together with theorems that
settle the spec claims about `getUserInfo`, `getUserList` and `postUser`.

Conventions of the embedding:
* the storage collaborator (TypeORM repositories) is an explicit `DB` state;
  every model operation takes the state and returns the new state and/or an
  `Except Err` result;
* `createError(status, message)` values are the constructors of `Err`, one
  per distinct call site message in the source;
* transient storage failures (the `.catch` handlers around repository calls)
  are injected through an explicit `Oracle` of failure flags, so that
  "the Credential write fails" is a statable hypothesis;
* JavaScript truthiness tests (`!data`, `data.email && data.username`,
  `if (data.id)`, `if (data.password)`) are modelled exactly: the number 0
  and the empty string are falsy, fields are `Option`s and `none` is falsy;
* `=== undefined` sentinel comparisons are modelled by matching on `Option`.
-/

/-- Modelled from the spec: `src/init/privilege.ts` is not under `src/`.
The spec's ordered enumeration gives `Enabled = 1` (§3: `Disabled=0,
Enabled=1`); `postUser` uses `UserPrivilege.isEnabled` for a confirmed new
user and the literal `0` for the pending/unconfirmed state. -/
def UserPrivilege.isEnabled : Nat := 1

/-- The pending (unconfirmed signup) privilege: the literal `0` assigned by
`postUser` when `config.oj.policy.signup.need_confirmation` holds. -/
def UserPrivilege.pending : Nat := 0

/-- The distinct `createError` call sites of `src/models/user.ts`, plus the
`PolicyViolationError` of the credential store.  Spec taxonomy (§7):
`invalidParameters` = InvalidParameterError, `databaseOperationFailed` =
StorageError, `usernameOrEmailTaken` = ConflictError, `noMatchingResult` =
NotFoundError, `revertingFailedAsWell` = IrrecoverableStorageError,
`policyViolation` = PolicyViolationError. -/
inductive Err where
  /-- `createError(500, 'Invalid parameters.')` -/
  | invalidParameters
  /-- `createError(500, 'Database operation failed.')` -/
  | databaseOperationFailed
  /-- `createError(400, 'User does not exist.')` -/
  | userDoesNotExist
  /-- `createError(400, 'Username or email taken.')` (MySQL errno 1062) -/
  | usernameOrEmailTaken
  /-- `createError(500, 'Update user password failed.')` — the translation in
  the `.catch` of the password update; unreachable because the promise is not
  awaited in the source. -/
  | updatePasswordFailed
  /-- `createError(500, 'Database operation failed. Reverting failed as well.')` -/
  | revertingFailedAsWell
  /-- `createError(404, 'No matching result.')` -/
  | noMatchingResult
  /-- `PolicyViolationError` raised inside `UserCredential.updatePassword`. -/
  | policyViolation
deriving DecidableEq, Repr

/-- The HTTP status of each `createError` call site. -/
def Err.status : Err → Nat
  | .invalidParameters => 500
  | .databaseOperationFailed => 500
  | .userDoesNotExist => 400
  | .usernameOrEmailTaken => 400
  | .updatePasswordFailed => 500
  | .revertingFailedAsWell => 500
  | .noMatchingResult => 404
  | .policyViolation => 400

/-- The `User` entity (`src/entities/user.ts`, used through its fields in
`src/models/user.ts`): `id` is the database key (0 = not yet persisted),
`email`/`username` are required columns, the remaining profile columns are
nullable, `privilege` is the loosely-typed integer of the source, and
`createdAt` is set by the database on first save. -/
structure User where
  id : Nat
  email : String
  username : String
  nickname : Option String
  sex : Option Nat
  motto : Option String
  description : Option String
  privilege : Nat
  createdAt : Option Nat
deriving DecidableEq, Repr

/-- The projection selected by `getUserList` / `searchUser`
(`user.id, user.email, user.username, user.nickname, user.sex,
user.privilege` — public fields only). -/
structure UserPublic where
  id : Nat
  email : String
  username : String
  nickname : Option String
  sex : Option Nat
  privilege : Nat
deriving DecidableEq, Repr

def User.toPublic (u : User) : UserPublic :=
  { id := u.id, email := u.email, username := u.username,
    nickname := u.nickname, sex := u.sex, privilege := u.privilege }

/-- The `UserCredential` entity: one-to-one with `User` through `userId`
(0 = not yet attached), holding the password hash. -/
structure UserCredential where
  userId : Nat
  passwordHash : Option String
deriving DecidableEq, Repr

/-- The storage collaborator's state: the `user` and `user_credential`
tables. -/
structure DB where
  users : List User
  credentials : List UserCredential
deriving DecidableEq, Repr

/-- The configuration collaborator (`config.oj.policy...`). -/
structure Config where
  passwordMinLength : Nat
  passwordMaxLength : Nat
  needConfirmation : Bool
deriving DecidableEq, Repr

/-- Injected transient storage failures, one flag per `.catch`-guarded
repository call of `postUser`: the credential `findOne`, the user `save`
(generic failure, i.e. not the errno-1062 duplicate key), the credential
`save`, and the compensating user `remove`. -/
structure Oracle where
  credFindFails : Bool
  userSaveFails : Bool
  credSaveFails : Bool
  userRemoveFails : Bool
deriving DecidableEq, Repr

/-- The `data` payload of `postUser` (`data: any`): every field may be
absent (`undefined`). -/
structure PostData where
  id : Option Nat
  email : Option String
  username : Option String
  nickname : Option String
  sex : Option Nat
  motto : Option String
  description : Option String
  privilege : Option Nat
  password : Option String
deriving DecidableEq, Repr

/-- The `by` argument of `getUserInfo`: its TypeScript type is the union
`'id' | 'username' | 'email'`, but the source re-checks it at runtime
(`by !== 'id' && by !== 'username' && by !== 'email'`), so the model keeps a
constructor for every other runtime string. -/
inductive LookupBy where
  | id
  | username
  | email
  | other
deriving DecidableEq, Repr

/-- The `data` argument of `getUserInfo`: `number | string`. -/
inductive LookupKey where
  | num (n : Nat)
  | str (s : String)
deriving DecidableEq, Repr

/-- JavaScript truthiness of the lookup key: the number `0` and the empty
string are falsy (`!data`). -/
def LookupKey.falsy : LookupKey → Bool
  | .num n => n == 0
  | .str s => s == ""

/-- The `where: { [by]: data }` match of the `findOne` call: a user row
matches when the selected column equals the key (a key of the wrong runtime
type matches no row). -/
def matchesBy (u : User) (b : LookupBy) (k : LookupKey) : Bool :=
  match b, k with
  | .id, .num n => u.id == n
  | .username, .str s => u.username == s
  | .email, .str s => u.email == s
  | _, _ => false

/-- `getUserInfo(data, by)`: validates the parameters, then `findOne`s the
user.  The source returns the found row directly — a miss yields
`undefined` (`Option.none`), not an error; only a storage failure throws. -/
def getUserInfo (db : DB) (dbFails : Bool) (data : LookupKey) (by_ : LookupBy) :
    Except Err (Option User) :=
  if data.falsy || by_ == LookupBy.other then
    .error .invalidParameters
  else if dbFails then
    .error .databaseOperationFailed
  else
    .ok (db.users.find? (fun u => matchesBy u by_ data))

/-- The `orderBy` argument of `getUserList`: `'id' | 'username' | 'createdAt'`. -/
inductive OrderKey where
  | id
  | username
  | createdAt
deriving DecidableEq, Repr

/-- The `order` argument of `getUserList`: `'ASC' | 'DESC'`. -/
inductive SortOrder where
  | asc
  | desc
deriving DecidableEq, Repr

/-- The SQL `ORDER BY user.${orderBy} ${order}` comparison (the ordering the
storage collaborator applies before the `OFFSET`/`LIMIT` window). -/
def userLe (ob : OrderKey) (ord : SortOrder) (u v : User) : Bool :=
  let le :=
    match ob with
    | .id => decide (u.id ≤ v.id)
    | .username => decide (u.username ≤ v.username)
    | .createdAt => decide (u.createdAt.getD 0 ≤ v.createdAt.getD 0)
  match ord with
  | .asc => le
  | .desc => !le || decide (u = v)

/-- Stable insertion of a row into an already ordered row list. -/
def orderedInsert (le : User → User → Bool) (u : User) : List User → List User
  | [] => [u]
  | v :: vs => if le u v then u :: v :: vs else v :: orderedInsert le u vs

/-- The ordering pass of the query builder, as a stable insertion sort over
the table rows. -/
def sortUsers (le : User → User → Bool) : List User → List User
  | [] => []
  | u :: us => orderedInsert le u (sortUsers le us)

/-- The full ordered result set of the `getUserList` query before the
`OFFSET`/`LIMIT` window: the table rows ordered by `orderBy`/`order`, then
projected to the selected public columns. -/
def orderedPublics (db : DB) (ob : OrderKey) (ord : SortOrder) : List UserPublic :=
  (sortUsers (userLe ob ord) db.users).map User.toPublic

/-- `getUserList(orderBy, order, page, num)`: rejects `page < 1 || num < 1`,
runs the query with `offset (page-1)*num` and `limit num`, and turns an
empty result page into `createError(404, 'No matching result.')`. -/
def getUserList (db : DB) (dbFails : Bool) (ob : OrderKey) (ord : SortOrder)
    (page num : Int) : Except Err (List UserPublic) :=
  if page < 1 ∨ num < 1 then
    .error .invalidParameters
  else if dbFails then
    .error .databaseOperationFailed
  else
    let userList := ((orderedPublics db ob ord).drop ((page - 1) * num).toNat).take num.toNat
    if userList.isEmpty then
      .error .noMatchingResult
    else
      .ok userList

/-- Modelled from the spec: `src/entities/user_credential.ts` is not under
`src/`.  `CredentialStore.updatePassword` (spec §4.1) validates the new
plaintext against the caller-configured length bounds, failing with
`PolicyViolationError` when they are violated, and otherwise replaces the
in-memory credential's hash (persistence is the repository's job).  The
hashing algorithm is the injected `hashF`. -/
def updatePassword (cfg : Config) (hashF : String → String)
    (cred : UserCredential) (plaintext : String) : Except Err UserCredential :=
  if plaintext.length < cfg.passwordMinLength ∨ cfg.passwordMaxLength < plaintext.length then
    .error .policyViolation
  else
    .ok { cred with passwordHash := some (hashF plaintext) }

/-- JavaScript truthiness of an optional string field (`data.email`,
`data.password`): absent or empty is falsy. -/
def truthyStr : Option String → Bool
  | some s => s != ""
  | none => false

/-- JavaScript truthiness of `data.id`: absent or `0` is falsy, so
`postUser` treats a payload with `id: 0` as a creation. -/
def truthyId : Option Nat → Bool
  | some n => n != 0
  | none => false

/-- `new User()`: a fresh entity, no column set yet. -/
def freshUser : User :=
  { id := 0, email := "", username := "", nickname := none, sex := none,
    motto := none, description := none, privilege := 0, createdAt := none }

/-- `new UserCredential()`: a fresh credential, not yet attached to a user. -/
def freshCredential : UserCredential :=
  { userId := 0, passwordHash := none }

/-- The next auto-increment id the database assigns on inserting a user. -/
def nextId (db : DB) : Nat :=
  (db.users.foldr (fun u m => max u.id m) 0) + 1

/-- The duplicate-key condition of the user table: another row (a different
id) already holds the same email or username — MySQL errno 1062. -/
def hasConflict (db : DB) (u : User) : Bool :=
  db.users.any (fun v => v.id != u.id && (v.email == u.email || v.username == u.username))

/-- `userRepository.save(user)`: a duplicate email/username is errno 1062
(`'Username or email taken.'`); any other storage failure is injected by
`fails`.  An entity with id 0 is inserted (the database assigns the id and
`createdAt`), otherwise the row with the same id is replaced. -/
def saveUser (db : DB) (fails : Bool) (u : User) : Except Err (DB × User) :=
  if hasConflict db u then
    .error .usernameOrEmailTaken
  else if fails then
    .error .databaseOperationFailed
  else if u.id == 0 then
    let u' := { u with id := nextId db, createdAt := some 0 }
    .ok ({ db with users := db.users ++ [u'] }, u')
  else
    .ok ({ db with users := db.users.map (fun v => if v.id == u.id then u else v) }, u)

/-- `userCredentialRepository.save(userCredential)`: upsert by the owning
user id. -/
def saveCredential (db : DB) (fails : Bool) (c : UserCredential) : Except Err DB :=
  if fails then
    .error .databaseOperationFailed
  else if db.credentials.any (fun d => d.userId == c.userId) then
    .ok { db with credentials := db.credentials.map (fun d => if d.userId == c.userId then c else d) }
  else
    .ok { db with credentials := db.credentials ++ [c] }

/-- The field patch of `postUser` lines 183-188: each profile column is
overwritten only when the payload field is not `undefined`
(`user.email = data.email === undefined ? user.email : data.email`, etc.). -/
def patchUser (u : User) (d : PostData) : User :=
  { u with
    email := match d.email with | none => u.email | some v => v,
    username := match d.username with | none => u.username | some v => v,
    nickname := match d.nickname with | none => u.nickname | some v => some v,
    sex := match d.sex with | none => u.sex | some v => some v,
    motto := match d.motto with | none => u.motto | some v => some v,
    description := match d.description with | none => u.description | some v => some v }

/-- The fresh user of the creation branch of `postUser`, after line 169-170:
`user.privilege = (config.oj.policy.signup.need_confirmation &&
!user.createdAt) ? 0 : UserPrivilege.isEnabled`. -/
def newUserInit (cfg : Config) : User :=
  { freshUser with privilege :=
      if cfg.needConfirmation && freshUser.createdAt.isNone then 0
      else UserPrivilege.isEnabled }

/-- The first phase of `postUser`: resolve the target user and credential.
With a truthy `data.id` this is the credential `findOne` with its inner join
on the user (`'User does not exist.'` when the join finds nothing) followed
by the privilege update of lines 162-163 (unconditional — no authorization
check guards `data.privilege`); otherwise fresh entities are built and the
initial privilege comes from the signup-confirmation policy (line 169-170). -/
def resolveUser (cfg : Config) (db : DB) (orc : Oracle) (d : PostData) :
    Except Err (User × UserCredential) :=
  if truthyId d.id then
    if orc.credFindFails then
      .error .databaseOperationFailed
    else
      let n := d.id.getD 0
      match db.credentials.find? (fun c => c.userId == n),
            db.users.find? (fun u => u.id == n) with
      | some c, some u =>
          .ok ({ u with privilege := match d.privilege with
                                     | none => u.privilege
                                     | some p => p }, c)
      | _, _ => .error .userDoesNotExist
  else
    .ok (newUserInit cfg, freshCredential)

/-- `postUser(data)`.  Returns the database state after the call together
with the result.  Faithful to the source control flow:
1. reject unless `data.email && data.username` is truthy;
2. resolve user and credential (`resolveUser`);
3. `updatePassword` when `data.password` is truthy — the source does NOT
   await this promise, so a rejection is lost (an unhandled rejection) and
   never fails `postUser`: the model discards the error and keeps the old
   credential;
4. patch the profile columns;
5. save the user (errno 1062 → `'Username or email taken.'`);
6. attach and save the credential; on failure, compensate by removing the
   just-saved user (`'Database operation failed.'`), and if the remove also
   fails, `'Database operation failed. Reverting failed as well.'`. -/
def postUser (cfg : Config) (hashF : String → String) (db : DB) (orc : Oracle)
    (d : PostData) : DB × Except Err User :=
  if !(truthyStr d.email && truthyStr d.username) then
    (db, .error .invalidParameters)
  else
    match resolveUser cfg db orc d with
    | .error e => (db, .error e)
    | .ok (u0, c0) =>
      let c1 := if truthyStr d.password then
          match updatePassword cfg hashF c0 (d.password.getD "") with
          | .ok c => c
          | .error _ => c0
        else c0
      let u1 := patchUser u0 d
      match saveUser db orc.userSaveFails u1 with
      | .error e => (db, .error e)
      | .ok (db1, u2) =>
        let c2 := { c1 with userId := u2.id }
        match saveCredential db1 orc.credSaveFails c2 with
        | .ok db2 => (db2, .ok u2)
        | .error _ =>
          if orc.userRemoveFails then
            (db1, .error .revertingFailedAsWell)
          else
            ({ db1 with users := db1.users.filter (fun v => v.id != u2.id) },
             .error .databaseOperationFailed)


/-! ### Concrete instances used by witnesses and counterexamples -/

def cfgStrict : Config :=
  { passwordMinLength := 8, passwordMaxLength := 64, needConfirmation := false }

def cfgConfirm : Config :=
  { passwordMinLength := 8, passwordMaxLength := 64, needConfirmation := true }

def hashDemo : String → String := fun s => s ++ "-hashed"

def orcNone : Oracle := ⟨false, false, false, false⟩

def orcCredSaveFail : Oracle := ⟨false, false, true, false⟩

def orcCredRemoveFail : Oracle := ⟨false, false, true, true⟩

/-- The seeded identity of the spec scenarios (username `"zk"`). -/
def seedUser : User :=
  { id := 1, email := "a@b.c", username := "zk", nickname := none, sex := none,
    motto := none, description := none, privilege := 1, createdAt := some 0 }

def seedCredential : UserCredential := { userId := 1, passwordHash := some "oldhash" }

def seedDB : DB := { users := [seedUser], credentials := [seedCredential] }

/-- A payload with every field absent. -/
def emptyPost : PostData :=
  { id := none, email := none, username := none, nickname := none, sex := none,
    motto := none, description := none, privilege := none, password := none }

/-- A registration payload (no id). -/
def regPost : PostData := { emptyPost with email := some "x@y.z", username := some "w" }

/-- The identity `regPost` creates under `cfgConfirm` (pending privilege). -/
def regUser : User :=
  { id := 1, email := "x@y.z", username := "w", nickname := none, sex := none,
    motto := none, description := none, privilege := 0, createdAt := some 0 }

/-- The identity `regPost` creates under `cfgStrict` (enabled privilege). -/
def regUserEnabled : User := { regUser with privilege := 1 }

/-- A profile update of the seeded user that also sets `privilege: 99`. -/
def privPost : PostData :=
  { emptyPost with
    id := some 1, email := some "a@b.c", username := some "zk",
    privilege := some 99 }

/-- A registration payload reusing the seeded user's email. -/
def conflictPost : PostData :=
  { emptyPost with email := some "a@b.c", username := some "other" }

/-- A profile update of the seeded user: new email and nickname, other
profile fields absent. -/
def patchPost : PostData :=
  { emptyPost with
    id := some 1, email := some "new@b.c", username := some "zk",
    nickname := some "nick" }

/-- The stored row after `patchPost`. -/
def patchedUser : User := { seedUser with email := "new@b.c", nickname := some "nick" }

/-- A profile update carrying a password below `cfgStrict`'s minimum length. -/
def shortPwPost : PostData :=
  { emptyPost with
    id := some 1, email := some "a@b.c", username := some "zk",
    password := some "x" }

def listUser (n : Nat) : User := { freshUser with id := n + 1, createdAt := some 0 }

/-- A table of 21 identities with ids 1..21. -/
def listDB : DB := { users := (List.range 21).map listUser, credentials := [] }

def pageOneList : List UserPublic := ((orderedPublics listDB .id .asc).drop 0).take 20

def pageTwoList : List UserPublic := ((orderedPublics listDB .id .asc).drop 20).take 20

/-! ### Helper lemmas about the embedding -/

theorem patchUser_id (u : User) (d : PostData) : (patchUser u d).id = u.id := rfl

theorem patchUser_privilege (u : User) (d : PostData) :
    (patchUser u d).privilege = u.privilege := rfl

theorem patchUser_createdAt (u : User) (d : PostData) :
    (patchUser u d).createdAt = u.createdAt := rfl

theorem newUserInit_id (cfg : Config) : (newUserInit cfg).id = 0 := rfl

theorem newUserInit_privilege (cfg : Config) :
    (newUserInit cfg).privilege =
      if cfg.needConfirmation then UserPrivilege.pending else UserPrivilege.isEnabled := by
  by_cases h : cfg.needConfirmation <;>
    simp [newUserInit, freshUser, h, UserPrivilege.pending, UserPrivilege.isEnabled]

/-- Every row's id is bounded by the running maximum of the table. -/
theorem id_le_foldr_max (l : List User) (v : User) (hv : v ∈ l) :
    v.id ≤ l.foldr (fun u m => max u.id m) 0 := by
  induction l with
  | nil => cases hv
  | cons u us ih =>
    rcases List.mem_cons.mp hv with h | h
    · subst h; exact le_max_left _ _
    · exact le_trans (ih h) (le_max_right _ _)

/-- The id the database assigns on insert is not yet used by any row. -/
theorem nextId_not_mem (db : DB) (v : User) (hv : v ∈ db.users) :
    v.id ≠ nextId db := by
  have := id_le_foldr_max db.users v hv
  unfold nextId
  omega

/-- A successful `postUser` decomposes into a successful resolution followed
by a successful user save of the patched entity, the saved entity being the
returned one. -/
theorem postUser_ok_split (cfg : Config) (hashF : String → String) (db : DB)
    (orc : Oracle) (d : PostData) (u : User)
    (h : (postUser cfg hashF db orc d).2 = .ok u) :
    ∃ u0 c0 db1, resolveUser cfg db orc d = .ok (u0, c0) ∧
      saveUser db orc.userSaveFails (patchUser u0 d) = .ok (db1, u) := by
  unfold postUser at h
  split at h
  · cases h
  · rcases hres : resolveUser cfg db orc d with e | ⟨u0, c0⟩
    · simp only [hres] at h
      cases h
    · simp only [hres] at h
      rcases hsave : saveUser db orc.userSaveFails (patchUser u0 d) with e | ⟨db1, u2⟩
      · simp only [hsave] at h
        cases h
      · simp only [hsave] at h
        rcases hcred : saveCredential db1 orc.credSaveFails
            { (if truthyStr d.password then
                 match updatePassword cfg hashF c0 (d.password.getD "") with
                 | .ok c => c
                 | .error _ => c0
               else c0) with userId := u2.id } with e | db2
        · simp only [hcred] at h
          split at h
          · cases h
          · cases h
        · simp only [hcred] at h
          cases h
          exact ⟨u0, c0, db1, rfl, hsave⟩

/-- A successful `saveUser` preserves every column except possibly `id` and
`createdAt` (which the database assigns on insert). -/
theorem saveUser_ok_fields (db : DB) (f : Bool) (u1 : User) (db1 : DB) (u2 : User)
    (h : saveUser db f u1 = .ok (db1, u2)) :
    u2.email = u1.email ∧ u2.username = u1.username ∧ u2.nickname = u1.nickname ∧
    u2.sex = u1.sex ∧ u2.motto = u1.motto ∧ u2.description = u1.description ∧
    u2.privilege = u1.privilege := by
  unfold saveUser at h
  split at h
  · cases h
  · split at h
    · cases h
    · split at h
      · cases h; exact ⟨rfl, rfl, rfl, rfl, rfl, rfl, rfl⟩
      · cases h; exact ⟨rfl, rfl, rfl, rfl, rfl, rfl, rfl⟩

/-- On the creation branch (falsy `data.id`) the resolution step always
yields the fresh entities with the policy-assigned privilege. -/
theorem resolveUser_ok_create (cfg : Config) (db : DB) (orc : Oracle) (d : PostData)
    (hid : truthyId d.id = false) :
    resolveUser cfg db orc d = .ok (newUserInit cfg, freshCredential) := by
  unfold resolveUser
  rw [hid]
  rfl

/-- On the update branch, a successful resolution returns the joined user
with its privilege overwritten by the payload's `privilege` field whenever
that field is present — unconditionally. -/
theorem resolveUser_ok_update (cfg : Config) (db : DB) (orc : Oracle) (d : PostData)
    (n : Nat) (u0 : User) (c0 : UserCredential) (u0' : User) (c0' : UserCredential)
    (hn : d.id = some n) (hn0 : n ≠ 0)
    (hc : db.credentials.find? (fun c => c.userId == n) = some c0)
    (hu : db.users.find? (fun u => u.id == n) = some u0)
    (h : resolveUser cfg db orc d = .ok (u0', c0')) :
    u0' = { u0 with privilege := match d.privilege with
                                 | none => u0.privilege
                                 | some p => p } := by
  unfold resolveUser at h
  have ht : truthyId d.id = true := by simp [truthyId, hn, hn0]
  rw [ht] at h
  simp only [if_true] at h
  split at h
  · cases h
  · simp only [hn, Option.getD_some] at h
    rw [hc, hu] at h
    cases h
    rfl

theorem perm_orderedInsert (le : User → User → Bool) (u : User) (l : List User) :
    (orderedInsert le u l).Perm (u :: l) := by
  induction l with
  | nil => exact List.Perm.refl _
  | cons v vs ih =>
    unfold orderedInsert
    split
    · exact List.Perm.refl _
    · exact (ih.cons v).trans (List.Perm.swap u v vs)

theorem perm_sortUsers (le : User → User → Bool) (l : List User) :
    (sortUsers le l).Perm l := by
  induction l with
  | nil => exact List.Perm.refl _
  | cons u us ih =>
    exact (perm_orderedInsert le u (sortUsers le us)).trans (ih.cons u)

/-- When the table's ids are distinct, the ordered projected result set has
no duplicate entries. -/
theorem nodup_orderedPublics (db : DB) (ob : OrderKey) (ord : SortOrder)
    (h : (db.users.map User.id).Nodup) : (orderedPublics db ob ord).Nodup := by
  unfold orderedPublics
  have hperm := perm_sortUsers (userLe ob ord) db.users
  have h2 : ((sortUsers (userLe ob ord) db.users).map User.id).Nodup :=
    (hperm.map User.id).symm.nodup h
  apply List.Nodup.of_map UserPublic.id
  rw [List.map_map]
  have hcomp : (UserPublic.id ∘ User.toPublic) = User.id := funext fun u => rfl
  rw [hcomp]
  exact h2

/-- Elimination of a successful `getUserList`: the returned page is exactly
the `OFFSET (page-1)*num LIMIT num` window of the ordered result set, it is
not empty, and the parameters passed validation. -/
theorem getUserList_ok_elim (db : DB) (ob : OrderKey) (ord : SortOrder)
    (page num : Int) (l : List UserPublic)
    (h : getUserList db false ob ord page num = .ok l) :
    l = ((orderedPublics db ob ord).drop ((page - 1) * num).toNat).take num.toNat ∧
    l.isEmpty = false ∧ ¬(page < 1 ∨ num < 1) := by
  unfold getUserList at h
  split at h
  · cases h
  · rename_i hval
    rw [if_neg Bool.false_ne_true] at h
    have h2 : (if (((orderedPublics db ob ord).drop ((page - 1) * num).toNat).take num.toNat).isEmpty = true
        then (Except.error Err.noMatchingResult : Except Err (List UserPublic))
        else Except.ok (((orderedPublics db ob ord).drop ((page - 1) * num).toNat).take num.toNat)) =
        Except.ok l := h
    split at h2
    · cases h2
    · rename_i hne
      injection h2 with h'
      refine ⟨h'.symm, ?_, hval⟩
      rw [← h']
      revert hne
      cases (((orderedPublics db ob ord).drop ((page - 1) * num).toNat).take num.toNat).isEmpty <;> simp

/-- Claim C10: `getUserInfo` rejects every falsy lookup key — the numeric id
0 as well as the empty string — and every `by` outside
{id, username, email}, with the invalid-parameter error (`createError(500,
'Invalid parameters.')`).  The rejection precedes any storage access: it
fires even when the storage collaborator would fail, and it is distinct from
the not-found error, so a falsy key is never treated as a well-formed lookup
that misses. -/
theorem getUserInfo_rejects_falsy (db : DB) (dbFails : Bool) (k : LookupKey)
    (b : LookupBy) (h : k.falsy = true ∨ b = .other) :
    getUserInfo db dbFails k b = .error .invalidParameters ∧
    Err.invalidParameters ≠ Err.noMatchingResult := by
  refine ⟨?_, by decide⟩
  unfold getUserInfo
  rcases h with h | h
  · rw [h]
    rfl
  · subst h
    rw [show (k.falsy || (LookupBy.other == LookupBy.other)) = true by simp]
    rfl

theorem getUserInfo_rejects_falsy_witness :
    getUserInfo seedDB true (.num 0) .id = .error .invalidParameters ∧
    Err.invalidParameters ≠ Err.noMatchingResult :=
  getUserInfo_rejects_falsy seedDB true (.num 0) .id (Or.inl (by decide))

/-- Claim C3 counterexample: a lookup miss is NOT reported as
`NotFoundError` — `getUserInfo` returns the `findOne` result directly, so a
miss is the success value `none` (`undefined`), refuting "fails with
NotFoundError when no Identity matches". -/
theorem getUserInfo_miss_counterexample :
    getUserInfo (DB.mk [] []) false (.num 1) .id = .ok none ∧
    getUserInfo (DB.mk [] []) false (.num 1) .id ≠ .error .noMatchingResult :=
  ⟨rfl, fun h => Except.noConfusion h⟩

/-- `find?` returns the unique element satisfying the predicate whenever a
satisfying element is in the list and no other one is. -/
theorem find?_eq_some_of_unique (p : User → Bool) (l : List User) (u : User)
    (hu : u ∈ l) (hp : p u = true)
    (huniq : ∀ v ∈ l, p v = true → v = u) :
    l.find? p = some u := by
  induction l with
  | nil => cases hu
  | cons v vs ih =>
    by_cases hv : p v = true
    · have hvu : v = u := huniq v (List.mem_cons_self v vs) hv
      subst hvu
      exact List.find?_cons_of_pos vs hv
    · rw [List.find?_cons_of_neg vs hv]
      have hune : u ≠ v := fun h => hv (h ▸ hp)
      have hu' : u ∈ vs := by
        rcases List.mem_cons.mp hu with h | h
        · exact absurd h hune
        · exact h
      exact ih hu' (fun w hw hpw => huniq w (List.mem_cons_of_mem v hw) hpw)

/-- Claim C3 (amended): for every valid lookup key and every `by` in
{id, username, email}, `getUserInfo` returns the matching identity when one
exists (stated for the data model's situation, where id/username/email are
unique keys, so the match is unique), every returned identity is a stored
match, and it returns success with no identity (`undefined`) — not
`NotFoundError` — when no identity matches. -/
theorem getUserInfo_found_or_none (db : DB) (k : LookupKey) (b : LookupBy)
    (hk : k.falsy = false) (hb : b ≠ .other) :
    (∀ u, u ∈ db.users → matchesBy u b k = true →
       (∀ v ∈ db.users, matchesBy v b k = true → v = u) →
       getUserInfo db false k b = .ok (some u)) ∧
    (∀ u, getUserInfo db false k b = .ok (some u) →
       u ∈ db.users ∧ matchesBy u b k = true) ∧
    ((∀ u ∈ db.users, matchesBy u b k = false) →
       getUserInfo db false k b = .ok none) := by
  have hcond : (k.falsy || b == LookupBy.other) = false := by
    rw [hk]
    simpa using hb
  refine ⟨?_, ?_, ?_⟩
  · intro u hu hp huniq
    unfold getUserInfo
    rw [hcond]
    rw [if_neg Bool.false_ne_true, if_neg Bool.false_ne_true]
    rw [find?_eq_some_of_unique (fun v => matchesBy v b k) db.users u hu hp huniq]
  · intro u hu
    unfold getUserInfo at hu
    rw [hcond] at hu
    rw [if_neg Bool.false_ne_true, if_neg Bool.false_ne_true] at hu
    injection hu with h'
    have hmem := List.mem_of_find?_eq_some h'
    have hp := @List.find?_some User (fun u => matchesBy u b k) u db.users h'
    exact ⟨hmem, hp⟩
  · intro hall
    unfold getUserInfo
    rw [hcond]
    rw [if_neg Bool.false_ne_true, if_neg Bool.false_ne_true]
    rw [List.find?_eq_none.mpr (fun u hu => by rw [hall u hu]; exact Bool.false_ne_true)]

theorem getUserInfo_found_or_none_witness :
    getUserInfo seedDB false (.num 1) .id = .ok (some seedUser) :=
  (getUserInfo_found_or_none seedDB (.num 1) .id rfl (by decide)).1 seedUser
    (List.mem_singleton_self seedUser) rfl
    (fun v hv _ => List.mem_singleton.mp hv)

/-- Claim C4: `getUserList` fails with the invalid-parameter error for every
call with `page < 1` or `pageSize < 1` (before any storage access), never
returns an empty page as a success value, and fails with the not-found
error (`createError(404, 'No matching result.')`) for every call whose
result window is empty — including a page beyond the data. -/
theorem getUserList_validation_and_empty (db : DB) (ob : OrderKey)
    (ord : SortOrder) (page num : Int) :
    (∀ dbFails, page < 1 ∨ num < 1 →
       getUserList db dbFails ob ord page num = .error .invalidParameters) ∧
    (∀ l, getUserList db false ob ord page num = .ok l → l ≠ []) ∧
    (¬(page < 1 ∨ num < 1) →
       ((orderedPublics db ob ord).drop ((page - 1) * num).toNat).take num.toNat = [] →
       getUserList db false ob ord page num = .error .noMatchingResult) := by
  refine ⟨?_, ?_, ?_⟩
  · intro dbFails h
    unfold getUserList
    rw [if_pos h]
  · intro l h hnil
    have := (getUserList_ok_elim db ob ord page num l h).2.1
    rw [hnil] at this
    cases this
  · intro hv hempty
    unfold getUserList
    rw [if_neg hv, if_neg Bool.false_ne_true]
    simp only [hempty]
    rfl

theorem getUserList_validation_and_empty_witness :
    getUserList listDB true .id .asc 0 20 = .error .invalidParameters ∧
    getUserList listDB false .id .asc 3 20 = .error .noMatchingResult :=
  ⟨(getUserList_validation_and_empty listDB .id .asc 0 20).1 true (by decide),
   (getUserList_validation_and_empty listDB .id .asc 3 20).2.2 (by decide) rfl⟩

/-- Claim C8: for every page `p ≥ 1` and size `n ≥ 1`, a successful
`getUserList` page is exactly the `n`-element window of the ordered result
set starting at offset `(p-1)*n`; consequently, when the table's ids are
distinct, pages `p` and `p+1` never share an element — in particular pages 1
and 2 of size 20 over ≥ 21 identities are disjoint, order-consistent
slices. -/
theorem getUserList_pages_disjoint (db : DB) (ob : OrderKey) (ord : SortOrder)
    (p n : Int) (hp : 1 ≤ p) (hn : 1 ≤ n)
    (hids : (db.users.map User.id).Nodup) (l1 l2 : List UserPublic)
    (h1 : getUserList db false ob ord p n = .ok l1)
    (h2 : getUserList db false ob ord (p + 1) n = .ok l2) :
    l1 = ((orderedPublics db ob ord).drop ((p - 1) * n).toNat).take n.toNat ∧
    l2 = ((orderedPublics db ob ord).drop (p * n).toNat).take n.toNat ∧
    l1.Disjoint l2 := by
  have e1 := (getUserList_ok_elim db ob ord p n l1 h1).1
  have e2 := (getUserList_ok_elim db ob ord (p + 1) n l2 h2).1
  have harith : (p + 1 - 1) * n = p * n := by ring
  rw [harith] at e2
  have hnd : (orderedPublics db ob ord).Nodup := nodup_orderedPublics db ob ord hids
  have ha : (0 : Int) ≤ (p - 1) * n := mul_nonneg (by omega) (by omega)
  have hb : (0 : Int) ≤ n := by omega
  have hsum : ((p - 1) * n).toNat + n.toNat = (p * n).toNat := by
    rw [← Int.toNat_add ha hb]
    congr 1
    ring
  have hdrop : (orderedPublics db ob ord).drop ((p * n).toNat) =
      ((orderedPublics db ob ord).drop ((p - 1) * n).toNat).drop n.toNat := by
    rw [List.drop_drop, hsum]
  have hT : ((orderedPublics db ob ord).drop ((p - 1) * n).toNat).Nodup :=
    List.Nodup.sublist (List.drop_sublist _ _) hnd
  have hdisj := List.disjoint_take_drop hT (le_refl n.toNat)
  refine ⟨e1, e2, ?_⟩
  rw [e1, e2, hdrop]
  exact fun a ha1 ha2 => hdisj ha1 (List.take_subset _ _ ha2)

theorem getUserList_pages_disjoint_witness :
    pageOneList.Disjoint pageTwoList ∧
    pageOneList.length = 20 ∧ pageTwoList.length = 1 ∧ listDB.users.length = 21 :=
  ⟨(getUserList_pages_disjoint listDB .id .asc 1 20 (by decide) (by decide)
      (by decide) pageOneList pageTwoList rfl rfl).2.2,
   by decide, by decide, by decide⟩

/-- Claim C5: every newly created identity (`postUser` with no truthy id in
the payload) gets initial privilege `pending` (the literal 0) when the
deployment policy requires signup confirmation, and `isEnabled` otherwise.
The creation branch never reads `data.privilege`. -/
theorem postUser_new_user_privilege (cfg : Config) (hashF : String → String)
    (db : DB) (orc : Oracle) (d : PostData) (u : User)
    (hid : truthyId d.id = false)
    (h : (postUser cfg hashF db orc d).2 = .ok u) :
    u.privilege = if cfg.needConfirmation then UserPrivilege.pending
                  else UserPrivilege.isEnabled := by
  obtain ⟨u0, c0, db1, hres, hsave⟩ := postUser_ok_split cfg hashF db orc d u h
  rw [resolveUser_ok_create cfg db orc d hid] at hres
  injection hres with h'
  cases h'
  have hfields := saveUser_ok_fields db orc.userSaveFails
    (patchUser (newUserInit cfg) d) db1 u hsave
  rw [hfields.2.2.2.2.2.2, patchUser_privilege, newUserInit_privilege]

theorem postUser_new_user_privilege_witness :
    regUser.privilege = if cfgConfirm.needConfirmation then UserPrivilege.pending
                        else UserPrivilege.isEnabled :=
  postUser_new_user_privilege cfgConfirm hashDemo (DB.mk [] []) orcNone regPost
    regUser rfl rfl

/-- Claim C6 counterexample: the profile-update path changes an identity's
privilege with no authorization check at all — no `canChangePrivilege`
decision exists anywhere in `postUser` — so a plain profile update escalates
the seeded user from privilege 1 to 99, refuting "cannot change an
Identity's privilege unless the canChangePrivilege authorization decision
permits it". -/
theorem postUser_privilege_counterexample :
    (postUser cfgStrict hashDemo seedDB orcNone privPost).2 =
      .ok { seedUser with privilege := 99 } ∧
    (postUser cfgStrict hashDemo seedDB orcNone privPost).1.users.map User.privilege
      = [99] ∧
    seedUser.privilege = 1 :=
  ⟨rfl, rfl, rfl⟩

/-- Claim C6 (amended): the profile-update path (`postUser` with an existing
id) sets the stored privilege to the payload's `privilege` field whenever
that field is present, unconditionally — no authorization decision is
consulted in this layer, so callers must enforce privilege-change
authorization before calling. -/
theorem postUser_privilege_overwrite (cfg : Config) (hashF : String → String)
    (db : DB) (orc : Oracle) (d : PostData) (n : Nat) (u0 : User)
    (c0 : UserCredential) (u' : User)
    (hn : d.id = some n) (hn0 : n ≠ 0)
    (hc : db.credentials.find? (fun c => c.userId == n) = some c0)
    (hu : db.users.find? (fun v => v.id == n) = some u0)
    (h : (postUser cfg hashF db orc d).2 = .ok u') :
    u'.privilege = match d.privilege with
                   | none => u0.privilege
                   | some p => p := by
  obtain ⟨ua, ca, db1, hres, hsave⟩ := postUser_ok_split cfg hashF db orc d u' h
  have he := resolveUser_ok_update cfg db orc d n u0 c0 ua ca hn hn0 hc hu hres
  subst he
  have hfields := saveUser_ok_fields db orc.userSaveFails _ db1 u' hsave
  rw [hfields.2.2.2.2.2.2, patchUser_privilege]

theorem postUser_privilege_overwrite_witness :
    ({ seedUser with privilege := 99 } : User).privilege = 99 :=
  postUser_privilege_overwrite cfgStrict hashDemo seedDB orcNone privPost 1
    seedUser seedCredential { seedUser with privilege := 99 }
    rfl (by decide) rfl rfl rfl

/-- Claim C9: on a profile update of an existing identity, every profile
field absent (`undefined`) in the payload — email, username, nickname, sex,
motto, description — is left unchanged on the stored identity, and every
field present is set to the supplied value. -/
theorem postUser_patch_semantics (cfg : Config) (hashF : String → String)
    (db : DB) (orc : Oracle) (d : PostData) (n : Nat) (u0 : User)
    (c0 : UserCredential) (u' : User)
    (hn : d.id = some n) (hn0 : n ≠ 0)
    (hc : db.credentials.find? (fun c => c.userId == n) = some c0)
    (hu : db.users.find? (fun v => v.id == n) = some u0)
    (h : (postUser cfg hashF db orc d).2 = .ok u') :
    u'.email = (match d.email with | none => u0.email | some v => v) ∧
    u'.username = (match d.username with | none => u0.username | some v => v) ∧
    u'.nickname = (match d.nickname with | none => u0.nickname | some v => some v) ∧
    u'.sex = (match d.sex with | none => u0.sex | some v => some v) ∧
    u'.motto = (match d.motto with | none => u0.motto | some v => some v) ∧
    u'.description = (match d.description with | none => u0.description | some v => some v) := by
  obtain ⟨ua, ca, db1, hres, hsave⟩ := postUser_ok_split cfg hashF db orc d u' h
  have he := resolveUser_ok_update cfg db orc d n u0 c0 ua ca hn hn0 hc hu hres
  subst he
  have hfields := saveUser_ok_fields db orc.userSaveFails _ db1 u' hsave
  exact ⟨hfields.1, hfields.2.1, hfields.2.2.1, hfields.2.2.2.1,
    hfields.2.2.2.2.1, hfields.2.2.2.2.2.1⟩

theorem postUser_patch_semantics_witness :
    patchedUser.email = "new@b.c" ∧ patchedUser.username = "zk" ∧
    patchedUser.nickname = some "nick" ∧ patchedUser.sex = seedUser.sex ∧
    patchedUser.motto = seedUser.motto ∧
    patchedUser.description = seedUser.description :=
  postUser_patch_semantics cfgStrict hashDemo seedDB orcNone patchPost 1
    seedUser seedCredential patchedUser rfl (by decide) rfl rfl rfl

/-- Claim C2: whenever persisting the identity hits a uniqueness violation
on email or username (the errno-1062 duplicate-key condition), `postUser`
fails with the conflict error `'Username or email taken.'` — distinct from
the generic storage error — and the database is left untouched: in
particular no credential row is created, because the credential save is only
reached after a successful identity save. -/
theorem postUser_conflict (cfg : Config) (hashF : String → String) (db : DB)
    (orc : Oracle) (d : PostData) (u0 : User) (c0 : UserCredential)
    (hval : (truthyStr d.email && truthyStr d.username) = true)
    (hres : resolveUser cfg db orc d = .ok (u0, c0))
    (hconf : hasConflict db (patchUser u0 d) = true) :
    postUser cfg hashF db orc d = (db, .error .usernameOrEmailTaken) ∧
    (postUser cfg hashF db orc d).1.credentials = db.credentials ∧
    Err.usernameOrEmailTaken ≠ Err.databaseOperationFailed := by
  have hsaveu : saveUser db orc.userSaveFails (patchUser u0 d) =
      .error .usernameOrEmailTaken := by
    unfold saveUser
    rw [if_pos hconf]
  have hmain : postUser cfg hashF db orc d = (db, .error .usernameOrEmailTaken) := by
    unfold postUser
    simp only [hval, Bool.not_true, Bool.false_eq_true, if_false, hres, hsaveu]
  exact ⟨hmain, by rw [hmain], by decide⟩

theorem postUser_conflict_witness :
    postUser cfgStrict hashDemo seedDB orcNone conflictPost =
      (seedDB, .error .usernameOrEmailTaken) :=
  (postUser_conflict cfgStrict hashDemo seedDB orcNone conflictPost
    (newUserInit cfgStrict) freshCredential rfl rfl (by decide)).1

/-- Claim C7: the source does NOT await the `updatePassword` promise
(lines 174-181), so a failing password update — here a policy violation for
a 1-character password under a minimum length of 8 — is lost as an
unhandled rejection: `postUser` still reports success and the stored
credential hash is unchanged, contradicting the spec's "no error is
silently swallowed" / `PolicyViolationError` propagation.  The `.catch`
handler's own `createError(500, 'Update user password failed.')` is dead
code, which shows the propagation was intended. -/
theorem postUser_password_error_swallowed :
    updatePassword cfgStrict hashDemo seedCredential "x" = .error .policyViolation ∧
    (postUser cfgStrict hashDemo seedDB orcNone shortPwPost).2 = .ok seedUser ∧
    (postUser cfgStrict hashDemo seedDB orcNone shortPwPost).1.credentials
      = [seedCredential] :=
  ⟨rfl, rfl, rfl⟩

/-- Claim C1 counterexample: in the exact claimed scenario — the identity
write succeeds (last conjunct: without the injected failure the same call
persists the user with id 1) but the credential write fails — the
compensating delete does run and the storage error is surfaced, yet the
subsequent `findIdentity` for that id does NOT return `NotFoundError`: it
returns success with no identity (`undefined`), because `getUserInfo`
reports misses as an absent value. -/
theorem postUser_compensation_counterexample :
    (postUser cfgStrict hashDemo (DB.mk [] []) orcCredSaveFail regPost).2 =
      .error .databaseOperationFailed ∧
    getUserInfo (postUser cfgStrict hashDemo (DB.mk [] []) orcCredSaveFail regPost).1
      false (.num 1) .id = .ok none ∧
    getUserInfo (postUser cfgStrict hashDemo (DB.mk [] []) orcCredSaveFail regPost).1
      false (.num 1) .id ≠ .error .noMatchingResult ∧
    (postUser cfgStrict hashDemo (DB.mk [] []) orcNone regPost).1.users
      = [regUserEnabled] :=
  ⟨rfl, rfl, fun h => Except.noConfusion h, rfl⟩

/-- Claim C1 (amended): `postUser` is all-or-nothing.  On a creation whose
identity write succeeds while the credential write fails, the compensating
delete of the just-written identity runs and the storage error
`'Database operation failed.'` is surfaced, leaving the database exactly as
before the call, so a subsequent `findIdentity` for the new id finds no
identity (it returns the miss as an absent value, `getUserInfo`'s behavior,
rather than as `NotFoundError`); and when the compensating delete itself
also fails, the distinct irrecoverable error
`'Database operation failed. Reverting failed as well.'` is surfaced
instead. -/
theorem postUser_compensation (cfg : Config) (hashF : String → String) (db : DB)
    (orc : Oracle) (d : PostData)
    (hval : (truthyStr d.email && truthyStr d.username) = true)
    (hid : truthyId d.id = false)
    (hconf : hasConflict db (patchUser (newUserInit cfg) d) = false)
    (hsavef : orc.userSaveFails = false)
    (hcredf : orc.credSaveFails = true) :
    (orc.userRemoveFails = false →
       postUser cfg hashF db orc d = (db, .error .databaseOperationFailed) ∧
       getUserInfo (postUser cfg hashF db orc d).1 false (.num (nextId db)) .id
         = .ok none) ∧
    (orc.userRemoveFails = true →
       (postUser cfg hashF db orc d).2 = .error .revertingFailedAsWell ∧
       Err.revertingFailedAsWell ≠ Err.databaseOperationFailed) := by
  have hid0 : ((patchUser (newUserInit cfg) d).id == 0) = true := by
    rw [patchUser_id, newUserInit_id]
    rfl
  have hsaveu : saveUser db orc.userSaveFails (patchUser (newUserInit cfg) d) =
      .ok ({ db with users := db.users ++
               [{ patchUser (newUserInit cfg) d with id := nextId db, createdAt := some 0 }] },
           { patchUser (newUserInit cfg) d with id := nextId db, createdAt := some 0 }) := by
    unfold saveUser
    rw [if_neg (by simp [hconf] : ¬(hasConflict db (patchUser (newUserInit cfg) d) = true))]
    rw [hsavef, if_neg Bool.false_ne_true, if_pos hid0]
  have hsavec : ∀ (db0 : DB) (c : UserCredential),
      saveCredential db0 orc.credSaveFails c = .error .databaseOperationFailed := by
    intro db0 c
    unfold saveCredential
    rw [hcredf]
    rfl
  have hfilter : (db.users ++
      [{ patchUser (newUserInit cfg) d with id := nextId db, createdAt := some 0 }]).filter
        (fun v => v.id != nextId db) = db.users := by
    rw [List.filter_append]
    have hone : ([{ patchUser (newUserInit cfg) d with id := nextId db, createdAt := some 0 }] :
        List User).filter (fun v => v.id != nextId db) = [] := by
      simp
    have hall : db.users.filter (fun v => v.id != nextId db) = db.users :=
      List.filter_eq_self.mpr (fun v hv => by
        simp only [bne_iff_ne, ne_eq, decide_eq_true_eq]
        exact nextId_not_mem db v hv)
    rw [hall, hone, List.append_nil]
  constructor
  · intro hrm
    have hpost : postUser cfg hashF db orc d = (db, .error .databaseOperationFailed) := by
      unfold postUser
      simp only [hval, Bool.not_true, Bool.false_eq_true, if_false,
        resolveUser_ok_create cfg db orc d hid, hsaveu, hsavec, hrm]
      rw [hfilter]
    refine ⟨hpost, ?_⟩
    rw [hpost]
    unfold getUserInfo
    have hkey : (LookupKey.num (nextId db)).falsy = false := by
      simp [LookupKey.falsy, nextId]
    rw [hkey]
    rw [show ((false || (LookupBy.id == LookupBy.other)) = false) from rfl]
    rw [if_neg Bool.false_ne_true, if_neg Bool.false_ne_true]
    rw [List.find?_eq_none.mpr (fun u hu => by
      simp only [matchesBy, beq_iff_eq]
      exact nextId_not_mem db u hu)]
  · intro hrm
    have hpost : (postUser cfg hashF db orc d).2 = .error .revertingFailedAsWell := by
      unfold postUser
      simp only [hval, Bool.not_true, Bool.false_eq_true, if_false,
        resolveUser_ok_create cfg db orc d hid, hsaveu, hsavec, hrm, if_true]
    exact ⟨hpost, by decide⟩

theorem postUser_compensation_witness :
    postUser cfgStrict hashDemo seedDB orcCredSaveFail regPost =
      (seedDB, .error .databaseOperationFailed) ∧
    (postUser cfgStrict hashDemo seedDB orcCredRemoveFail regPost).2 =
      .error .revertingFailedAsWell :=
  ⟨((postUser_compensation cfgStrict hashDemo seedDB orcCredSaveFail regPost
      rfl rfl (by decide) rfl rfl).1 rfl).1,
   ((postUser_compensation cfgStrict hashDemo seedDB orcCredRemoveFail regPost
      rfl rfl (by decide) rfl rfl).2 rfl).1⟩
